import Mathlib

/-!
Verification of the decode-filter-aggregate pipeline of `src/streamlit_app.py`
(a birth-statistics dashboard over a census-style table).

The embedding models one cell of the table as `Raw`: either an actual missing
value (pandas `NaN`/`NA`), a numeric value (modelled as a rational), or a piece
of text that does not parse as a number.  A text cell that does parse as a
number is represented directly by its numeric value, since every operation of
the source (`pd.to_numeric(..., errors="coerce")`) treats the two identically.

Rows carry the eight columns the sidebar filter and the audited aggregates
read; the filter pipeline (`applyFilter`) follows lines 154-189 of the source
step by step, including the in-place numeric coercion of the weight and
cohabitation columns and the columns' evaluation order.  Fallible pandas
operations (`astype("Int64")` on a non-integral float raises) are embedded in
`Except Unit`.
-/

/-- One cell of the table: missing (`NaN`), numeric, or unparseable text. -/
inductive Raw where
  | na : Raw
  | num : ℚ → Raw
  | txt : String → Raw
deriving DecidableEq, Repr

/-- `pd.to_numeric(·, errors="coerce")` on one cell: a number, or `NaN`
(`none`) when the cell is missing or does not parse. -/
def to_numeric : Raw → Option ℚ
  | .na => none
  | .num q => some q
  | .txt _ => none

/-- One cell of `to_int_series(s, dropna=False)` (source lines 116-118):
`pd.to_numeric(·, errors="coerce").astype("Int64")`.  The nullable-integer
cast keeps `NA`, maps an integral number to itself, and raises
(`cannot safely cast non-equivalent float64 to int64`) on a non-integral
number. -/
def to_int_cell (v : Raw) : Except Unit (Option Int) :=
  match to_numeric v with
  | none => .ok none
  | some q => if q.den = 1 then .ok (some q.num) else .error ()

/-- `to_int_series(s, dropna=False)` over a whole column. -/
def to_int_series (col : List Raw) : Except Unit (List (Option Int)) :=
  col.mapM to_int_cell

/-- 시도코드 → 시도명 (source lines 60-65). -/
def REGION_MAP : List (Int × String) :=
  [(11, "서울특별시"), (21, "부산광역시"), (22, "대구광역시"), (23, "인천광역시"),
   (24, "광주광역시"), (25, "대전광역시"), (26, "울산광역시"), (29, "세종특별자치시"),
   (31, "경기도"), (32, "강원도"), (33, "충청북도"), (34, "충청남도"),
   (35, "전라북도"), (36, "전라남도"), (37, "경상북도"), (38, "경상남도"),
   (39, "제주특별자치도")]

/-- `{v: k for k, v in m.items()}`: the reversed label → code dictionary. -/
def revMap (m : List (Int × String)) : List (String × Int) :=
  m.map (fun p => (p.2, p.1))

def REGION_MAP_REV : List (String × Int) := revMap REGION_MAP

def AGE_MAP : List (Int × String) :=
  [(1, "0~14세"), (2, "15~19세"), (3, "20~24세"), (4, "25~29세"), (5, "30~34세"),
   (6, "35~39세"), (7, "40~44세"), (8, "45~49세"), (9, "50세 이상"), (99, "미상")]

def MULTI_ORDER_MAP : List (Int × String) :=
  [(1, "첫째"), (2, "둘째"), (3, "셋째"), (4, "넷째"), (9, "미상")]

def MULTI_TYPE_MAP : List (Int × String) :=
  [(1, "단태아"), (2, "쌍태아"), (3, "삼태아이상"), (9, "미상")]

def MOTHER_TOTAL_CHILD_MAP : List (Int × String) :=
  [(1, "1명"), (2, "2명"), (3, "3명"), (4, "4명"), (5, "5명"), (6, "6명"),
   (7, "7명"), (8, "8명 이상"), (99, "미상")]

def NATIONALITY_MAP : List (Int × String) :=
  [(1, "출생한국인"), (2, "귀화한국인"), (3, "외국"), (9, "미상")]

/-- `gender_map = {1: "남", 2: "여"}` (source line 133). -/
def gender_map : List (Int × String) := [(1, "남"), (2, "여")]

/-- `multiple_map = MULTI_TYPE_MAP.copy()` (source line 137). -/
def multiple_map : List (Int × String) := MULTI_TYPE_MAP

/-- `marital_map = {1: "혼인 중 출생", 2: "혼인 외 출생"}` (source line 140). -/
def marital_map : List (Int × String) := [(1, "혼인 중 출생"), (2, "혼인 외 출생")]

/-- The dictionaries applied by `.map(...)` in the label-decoding block. -/
def ALL_MAPS : List (List (Int × String)) :=
  [REGION_MAP, AGE_MAP, MULTI_ORDER_MAP, MULTI_TYPE_MAP, MOTHER_TOTAL_CHILD_MAP,
   NATIONALITY_MAP]

/-- Label decoding, one cell (source lines 192-204): `series.map(DICT)` maps an
unmapped or missing code to `NaN` (`none`). -/
def decode (m : List (Int × String)) (code : Option Int) : Option String :=
  match code with
  | none => none
  | some c => m.lookup c

/-- One record of the table: the columns the sidebar filter and the audited
aggregates read.  Column names of the source, in order: 연도,
출생자주소지_행정구역시도코드, 성별코드, 출생월, 출생아체중, 다태아분류코드,
결혼중외의자녀여부코드, 부모동거기간. -/
structure Row where
  year : Raw
  region : Raw
  gender : Raw
  month : Raw
  weight : Raw
  multType : Raw
  marital : Raw
  cohab : Raw
deriving DecidableEq, Repr

/-- The sidebar filter specification (the widget values of lines 127-151). -/
structure FilterSpec where
  selected_year : Option Int          -- "전체" ↦ none
  selected_regions_name : List String
  selected_genders : List String
  selected_months : List Int
  selected_multiple : Option String   -- "전체" ↦ none
  selected_marital : Option String    -- "전체" ↦ none
  wt_lo : ℚ
  wt_hi : ℚ
  exclude_na : Bool
deriving DecidableEq, Repr

/-- Boolean mask cell for `series == code`: pandas propagates `NA`, and an `NA`
entry of a boolean mask selects nothing, so `none` compares false. -/
def cellEq (f : Row → Raw) (c : Int) (r : Row) : Except Unit Bool :=
  Except.map (fun oc => decide (oc = some c)) (to_int_cell (f r))

/-- Boolean mask cell for `series.isin(codes)`: `NA` is never in the list. -/
def isinI (oc : Option Int) (cs : List Int) : Bool :=
  match oc with
  | some c => cs.contains c
  | none => false

def cellIsin (f : Row → Raw) (cs : List Int) (r : Row) : Except Unit Bool :=
  Except.map (fun oc => isinI oc cs) (to_int_cell (f r))

/-- `_df = _df[mask]` for a mask built row by row from `p`; computing the mask
raises as soon as one row's cell raises (the series-level `astype`). -/
def stepFilter (p : Row → Except Unit Bool) : List Row → Except Unit (List Row)
  | [] => .ok []
  | r :: rs =>
    match p r, stepFilter p rs with
    | .ok b, .ok out => .ok (if b then r :: out else out)
    | .error e, _ => .error e
    | .ok _, .error e => .error e

/-- `if selected_year != "전체": _df = _df[to_int_series(_df["연도"], dropna=False) == int(selected_year)]`. -/
def yearStep (sp : FilterSpec) (rows : List Row) : Except Unit (List Row) :=
  match sp.selected_year with
  | none => .ok rows
  | some y => stepFilter (cellEq Row.year y) rows

/-- `selected_codes = [REGION_MAP_REV[n] for n in selected_regions_name if n in REGION_MAP_REV]`. -/
def regionCodes (names : List String) : List Int :=
  names.filterMap (fun n => REGION_MAP_REV.lookup n)

/-- `if selected_regions_name:` — the region filter runs only when the
multiselect is nonempty (an empty Python list is falsy). -/
def regionStep (sp : FilterSpec) (rows : List Row) : Except Unit (List Row) :=
  if sp.selected_regions_name.isEmpty then .ok rows
  else stepFilter (cellIsin Row.region (regionCodes sp.selected_regions_name)) rows

/-- `[rev_gender[g] for g in selected_genders]`: unlike the region list, no `if
g in` guard, so an unknown name raises `KeyError` (`none` here). -/
def genderCodes (sp : FilterSpec) : Option (List Int) :=
  sp.selected_genders.mapM (fun g => (revMap gender_map).lookup g)

def genderStep (sp : FilterSpec) (rows : List Row) : Except Unit (List Row) :=
  if sp.selected_genders.isEmpty then .ok rows
  else
    match genderCodes sp with
    | none => .error ()
    | some cs => stepFilter (cellIsin Row.gender cs) rows

def monthStep (sp : FilterSpec) (rows : List Row) : Except Unit (List Row) :=
  if sp.selected_months.isEmpty then .ok rows
  else stepFilter (cellIsin Row.month sp.selected_months) rows

/-- `if selected_multiple != "전체": ... == rev_multiple[selected_multiple]`. -/
def multStep (sp : FilterSpec) (rows : List Row) : Except Unit (List Row) :=
  match sp.selected_multiple with
  | none => .ok rows
  | some lab =>
    match (revMap multiple_map).lookup lab with
    | none => .error ()
    | some c => stepFilter (cellEq Row.multType c) rows

def maritalStep (sp : FilterSpec) (rows : List Row) : Except Unit (List Row) :=
  match sp.selected_marital with
  | none => .ok rows
  | some lab =>
    match (revMap marital_map).lookup lab with
    | none => .error ()
    | some c => stepFilter (cellEq Row.marital c) rows

/-- Rebuild a cell from a coerced numeric value (`NaN` ↦ missing). -/
def ofNum : Option ℚ → Raw
  | some q => .num q
  | none => .na

/-- `_df["출생아체중"] = pd.to_numeric(_df["출생아체중"], errors="coerce")`:
the weight column is overwritten in place before the range mask. -/
def normWeight (r : Row) : Row := { r with weight := ofNum (to_numeric r.weight) }

/-- `.between(selected_wt[0], selected_wt[1], inclusive="both")`: inclusive on
both ends; `NaN` is between nothing. -/
def weightPass (sp : FilterSpec) (r : Row) : Bool :=
  match r.weight with
  | .num q => decide (sp.wt_lo ≤ q) && decide (q ≤ sp.wt_hi)
  | _ => false

def weightStep (sp : FilterSpec) (rows : List Row) : List Row :=
  (rows.map normWeight).filter (weightPass sp)

def isNA : Raw → Bool
  | .na => true
  | _ => false

/-- `dropna(subset=["연도","출생자주소지_행정구역시도코드","성별코드","출생월","출생아체중"])`. -/
def corePresent (r : Row) : Bool :=
  !(isNA r.year || isNA r.region || isNA r.gender || isNA r.month || isNA r.weight)

def naStep (sp : FilterSpec) (rows : List Row) : List Row :=
  if sp.exclude_na then rows.filter corePresent else rows

/-- `_df["부모동거기간"] = pd.to_numeric(_df["부모동거기간"], errors="coerce")`. -/
def normCohab (r : Row) : Row := { r with cohab := ofNum (to_numeric r.cohab) }

/-- `_df = _df[_df["부모동거기간"] != 999]`: `NaN != 999` is `True`, so only an
actual 999 is dropped. -/
def cohabPass (r : Row) : Bool :=
  match r.cohab with
  | .num q => decide (q ≠ 999)
  | _ => true

/-- `if "부모동거기간" in _df.columns:` — `hasCohab` says whether the optional
column is present. -/
def cohabStep (hasCohab : Bool) (rows : List Row) : List Row :=
  if hasCohab then (rows.map normCohab).filter cohabPass else rows

/-- The sidebar filter pipeline, source lines 154-189, in evaluation order:
year, regions, genders, months, multiplicity type, marital type, weight range,
optional drop-missing-core, unconditional 999-sentinel exclusion. -/
def applyFilter (sp : FilterSpec) (hasCohab : Bool) (rows : List Row) :
    Except Unit (List Row) :=
  match yearStep sp rows with
  | .error e => .error e
  | .ok r1 =>
    match regionStep sp r1 with
    | .error e => .error e
    | .ok r2 =>
      match genderStep sp r2 with
      | .error e => .error e
      | .ok r3 =>
        match monthStep sp r3 with
        | .error e => .error e
        | .ok r4 =>
          match multStep sp r4 with
          | .error e => .error e
          | .ok r5 =>
            match maritalStep sp r5 with
            | .error e => .error e
            | .ok r6 => .ok (cohabStep hasCohab (naStep sp (weightStep sp r6)))

/-- The per-row normalization the pipeline applies to the rows it keeps (the
in-place coercion of the weight column, and of the cohabitation column when it
is present). -/
def normAll (hasCohab : Bool) (r : Row) : Row :=
  if hasCohab then normCohab (normWeight r) else normWeight r

/-- numpy `astype(int)` on a float: C-style truncation toward zero. -/
def truncQ (q : ℚ) : Int :=
  if 0 ≤ q.num then ((q.num.natAbs / q.den : ℕ) : Int)
  else -((q.num.natAbs / q.den : ℕ) : Int)

/-- `multiple_ratio = (pd.to_numeric(df["다태아분류코드"], errors="coerce")
.fillna(1).astype(int) > 1).mean() * 100` (source line 224).  `mean()` of an
empty series is `NaN`, embedded as `none`. -/
def multiple_ratio (rows : List Row) : Option ℚ :=
  let flags := rows.map (fun r => decide (1 < truncQ ((to_numeric r.multType).getD 1)))
  if rows.isEmpty then none
  else some ((flags.count true : ℚ) / (rows.length : ℚ) * 100)

/-- `marital_ratio = (pd.to_numeric(df["결혼중외의자녀여부코드"], errors="coerce")
== 2).mean() * 100` (source lines 225-226): `NaN == 2` is `False`. -/
def marital_ratio (rows : List Row) : Option ℚ :=
  let flags := rows.map (fun r => decide (to_numeric r.marital = some 2))
  if rows.isEmpty then none
  else some ((flags.count true : ℚ) / (rows.length : ℚ) * 100)

/-- `pd.to_numeric(df["부모동거기간"], errors="coerce").replace(999, pd.NA)
.dropna().mean()` (source lines 344-346): mean of the non-missing,
non-sentinel cohabitation durations; `NaN` (`none`) when nothing remains. -/
def cohab_mean (rows : List Row) : Option ℚ :=
  let vals := rows.filterMap (fun r =>
    match to_numeric r.cohab with
    | some q => if q = 999 then none else some q
    | none => none)
  if vals.isEmpty then none
  else some (vals.sum / (vals.length : ℚ))

/-- A well-formed record with every code subject to no filter surprises:
used to build concrete scenarios. -/
def baseRow : Row :=
  { year := .num 2023, region := .num 11, gender := .num 1, month := .num 1,
    weight := .num 1, multType := .num 1, marital := .num 1, cohab := .num 1 }

/-- A pass-through specification: no year, empty multiselects, no multiplicity
or marital choice, a wide weight range, missing-core rows kept. -/
def passSpec : FilterSpec :=
  { selected_year := none, selected_regions_name := [], selected_genders := [],
    selected_months := [], selected_multiple := none, selected_marital := none,
    wt_lo := 0, wt_hi := 10, exclude_na := false }

deriving instance DecidableEq for Except

theorem stepFilter_ok_eq {p : Row → Except Unit Bool} {l out : List Row}
    (h : stepFilter p l = .ok out) :
    out = l.filter (fun r => decide (p r = .ok true)) := by
  induction l generalizing out with
  | nil =>
    simp only [stepFilter, Except.ok.injEq] at h
    simp [← h]
  | cons r rs ih =>
    unfold stepFilter at h
    cases hp : p r with
    | error e => simp [hp] at h
    | ok b =>
      cases hs : stepFilter p rs with
      | error e => simp [hp, hs] at h
      | ok out' =>
        simp only [hp, hs, Except.ok.injEq] at h
        cases b with
        | true => simp [List.filter_cons, hp, ← h, ih hs]
        | false => simp [List.filter_cons, hp, ← h, ih hs]

theorem stepFilter_all {p : Row → Except Unit Bool} {l : List Row}
    (h : ∀ r ∈ l, p r = .ok true) : stepFilter p l = .ok l := by
  induction l with
  | nil => rfl
  | cons r rs ih =>
    unfold stepFilter
    rw [h r (List.mem_cons_self r rs), ih (fun s hs => h s (List.mem_cons_of_mem r hs))]
    simp

theorem stepFilter_sublist {p : Row → Except Unit Bool} {l out : List Row}
    (h : stepFilter p l = .ok out) : out.Sublist l := by
  rw [stepFilter_ok_eq h]; exact List.filter_sublist l

theorem stepFilter_mem {p : Row → Except Unit Bool} {l out : List Row}
    (h : stepFilter p l = .ok out) {r : Row} (hr : r ∈ out) :
    r ∈ l ∧ p r = .ok true := by
  rw [stepFilter_ok_eq h] at hr
  rcases List.mem_filter.mp hr with ⟨h1, h2⟩
  exact ⟨h1, of_decide_eq_true h2⟩

@[simp] theorem normWeight_year (r : Row) : (normWeight r).year = r.year := rfl
@[simp] theorem normWeight_region (r : Row) : (normWeight r).region = r.region := rfl
@[simp] theorem normWeight_gender (r : Row) : (normWeight r).gender = r.gender := rfl
@[simp] theorem normWeight_month (r : Row) : (normWeight r).month = r.month := rfl
@[simp] theorem normWeight_multType (r : Row) : (normWeight r).multType = r.multType := rfl
@[simp] theorem normWeight_marital (r : Row) : (normWeight r).marital = r.marital := rfl
@[simp] theorem normWeight_cohab (r : Row) : (normWeight r).cohab = r.cohab := rfl
@[simp] theorem normWeight_weight (r : Row) : (normWeight r).weight = ofNum (to_numeric r.weight) := rfl

@[simp] theorem normCohab_year (r : Row) : (normCohab r).year = r.year := rfl
@[simp] theorem normCohab_region (r : Row) : (normCohab r).region = r.region := rfl
@[simp] theorem normCohab_gender (r : Row) : (normCohab r).gender = r.gender := rfl
@[simp] theorem normCohab_month (r : Row) : (normCohab r).month = r.month := rfl
@[simp] theorem normCohab_multType (r : Row) : (normCohab r).multType = r.multType := rfl
@[simp] theorem normCohab_marital (r : Row) : (normCohab r).marital = r.marital := rfl
@[simp] theorem normCohab_weight (r : Row) : (normCohab r).weight = r.weight := rfl
@[simp] theorem normCohab_cohab (r : Row) : (normCohab r).cohab = ofNum (to_numeric r.cohab) := rfl

@[simp] theorem to_numeric_ofNum (x : Option ℚ) : to_numeric (ofNum x) = x := by
  cases x <;> rfl

theorem normWeight_idem (r : Row) : normWeight (normWeight r) = normWeight r := by
  cases r; simp [normWeight]

theorem normCohab_idem (r : Row) : normCohab (normCohab r) = normCohab r := by
  cases r; simp [normCohab]

theorem normWeight_normCohab (r : Row) : normWeight (normCohab r) = normCohab (normWeight r) := by
  cases r; rfl

theorem lookup_mem {α β : Type} [BEq α] [LawfulBEq α] {m : List (α × β)} {k : α} {v : β}
    (h : m.lookup k = some v) : (k, v) ∈ m := by
  induction m with
  | nil => simp at h
  | cons p ps ih =>
    rcases p with ⟨a, b⟩
    rw [List.lookup_cons] at h
    cases hk : k == a with
    | true =>
      rw [hk] at h
      simp only [Option.some.injEq] at h
      subst h
      exact (eq_of_beq hk) ▸ List.mem_cons_self _ _
    | false =>
      rw [hk] at h
      exact List.mem_cons_of_mem _ (ih h)

theorem lookup_eq_none_of_keys {m : List (Int × String)} {c : Int}
    (h : ∀ p ∈ m, p.1 ≠ c) : m.lookup c = none := by
  induction m with
  | nil => rfl
  | cons p ps ih =>
    rcases p with ⟨a, b⟩
    rw [List.lookup_cons]
    have hne : (c == a) = false :=
      beq_eq_false_iff_ne.mpr fun e => h (a, b) (List.mem_cons_self _ _) e.symm
    rw [hne]
    exact ih fun q hq => h q (List.mem_cons_of_mem _ hq)

/-- C8: decoding is total and deterministic over every dictionary: `NA` codes
and unmapped codes (negative ones among them) decode to the missing label
(`none`), mapped codes to their label. -/
theorem decode_total_on_all_maps :
    (∀ m ∈ ALL_MAPS, decode m none = none) ∧
    (∀ m ∈ ALL_MAPS, ∀ (c : Int) (lab : String), m.lookup c = some lab →
      decode m (some c) = some lab) ∧
    (∀ m ∈ ALL_MAPS, ∀ c : Int, m.lookup c = none → decode m (some c) = none) ∧
    (∀ m ∈ ALL_MAPS, ∀ c : Int, c < 0 → decode m (some c) = none) := by
  refine ⟨fun m _ => rfl, fun m _ c lab h => h, fun m _ c h => h, fun m hm c hc => ?_⟩
  apply lookup_eq_none_of_keys
  intro p hp
  have hpos : (0 : Int) < p.1 := by
    have hall : ∀ m ∈ ALL_MAPS, ∀ p ∈ m, (0 : Int) < p.1 := by decide
    exact hall m hm p hp
  omega

theorem decode_total_on_all_maps_witness :
    decode AGE_MAP none = none ∧ decode AGE_MAP (some 1) = some "0~14세" ∧
      decode AGE_MAP (some (-5)) = none :=
  ⟨decode_total_on_all_maps.1 AGE_MAP (by decide),
   decode_total_on_all_maps.2.1 AGE_MAP (by decide) 1 "0~14세" (by decide),
   decode_total_on_all_maps.2.2.2 AGE_MAP (by decide) (-5) (by decide)⟩

/-- C1 counterexample: with an empty regions selection and every other filter
pass-through, a one-row table filters to itself, not to the empty result. -/
theorem empty_regions_not_empty_result :
    applyFilter passSpec false [baseRow] = .ok [baseRow] ∧
      ([baseRow] : List Row) ≠ [] := by
  exact ⟨by decide, by simp⟩

/-- C1 amended: an empty regions selection skips the region predicate entirely
(`if selected_regions_name:` is false on an empty list), acting as "no filter
on this dimension" rather than excluding every row. -/
theorem empty_regions_skips_region_filter (sp : FilterSpec) (rows : List Row)
    (h : sp.selected_regions_name = []) : regionStep sp rows = .ok rows := by
  simp [regionStep, h]

theorem empty_regions_skips_region_filter_witness :
    regionStep passSpec [baseRow] = .ok [baseRow] :=
  empty_regions_skips_region_filter passSpec [baseRow] rfl

/-- C3 counterexample: a value that parses as the non-integral number 3/2 makes
the nullable-integer cast raise; it is neither truncated nor turned missing. -/
theorem to_int_raises_on_noninteger :
    to_int_cell (Raw.num (mkRat 3 2)) = .error () ∧
      to_int_cell (Raw.num (mkRat 3 2)) ≠ .ok (some 1) := by
  exact ⟨by decide, by decide⟩

/-- C3 amended: the integer-category conversion maps an unparseable or missing
value to missing and an integral number to that integer, but raises (the
`astype("Int64")` safe cast) on a number with a fractional part. -/
theorem to_int_cell_behaviour (v : Raw) :
    (to_numeric v = none → to_int_cell v = .ok none) ∧
    (∀ q : ℚ, to_numeric v = some q → q.den = 1 → to_int_cell v = .ok (some q.num)) ∧
    (∀ q : ℚ, to_numeric v = some q → q.den ≠ 1 → to_int_cell v = .error ()) := by
  refine ⟨fun h => ?_, fun q hq hd => ?_, fun q hq hd => ?_⟩ <;>
    simp [to_int_cell, *]

theorem to_int_cell_behaviour_witness :
    to_int_cell (Raw.num 7) = .ok (some 7) :=
  (to_int_cell_behaviour (Raw.num 7)).2.1 7 rfl (by decide)

theorem applyFilter_chain {sp : FilterSpec} {hc : Bool} {rows out : List Row}
    (h : applyFilter sp hc rows = .ok out) :
    ∃ r1 r2 r3 r4 r5 r6,
      yearStep sp rows = .ok r1 ∧ regionStep sp r1 = .ok r2 ∧
      genderStep sp r2 = .ok r3 ∧ monthStep sp r3 = .ok r4 ∧
      multStep sp r4 = .ok r5 ∧ maritalStep sp r5 = .ok r6 ∧
      out = cohabStep hc (naStep sp (weightStep sp r6)) := by
  unfold applyFilter at h
  cases h1 : yearStep sp rows with
  | error e => simp [h1] at h
  | ok r1 =>
  simp only [h1] at h
  cases h2 : regionStep sp r1 with
  | error e => simp [h2] at h
  | ok r2 =>
  simp only [h2] at h
  cases h3 : genderStep sp r2 with
  | error e => simp [h3] at h
  | ok r3 =>
  simp only [h3] at h
  cases h4 : monthStep sp r3 with
  | error e => simp [h4] at h
  | ok r4 =>
  simp only [h4] at h
  cases h5 : multStep sp r4 with
  | error e => simp [h5] at h
  | ok r5 =>
  simp only [h5] at h
  cases h6 : maritalStep sp r5 with
  | error e => simp [h6] at h
  | ok r6 =>
  simp only [h6, Except.ok.injEq] at h
  exact ⟨r1, r2, r3, r4, r5, r6, rfl, h2, h3, h4, h5, h6, h.symm⟩

/-- C4: under any filter specification, when the cohabitation column is
present no surviving row carries the sentinel 999, and the mean of the
cohabitation durations {999, 5} is 5 (the sentinel is never averaged in). -/
theorem cohab_sentinel_excluded :
    (∀ (sp : FilterSpec) (rows out : List Row), applyFilter sp true rows = .ok out →
      ∀ r ∈ out, r.cohab ≠ Raw.num 999) ∧
    cohab_mean [{ baseRow with cohab := .num 999 }, { baseRow with cohab := .num 5 }] =
      some 5 := by
  constructor
  · intro sp rows out h r hr hc999
    obtain ⟨r1, r2, r3, r4, r5, r6, -, -, -, -, -, -, hout⟩ := applyFilter_chain h
    subst hout
    simp only [cohabStep, if_pos rfl] at hr
    have hpass := (List.mem_filter.mp hr).2
    rw [cohabPass, hc999] at hpass
    simp at hpass
  · have h : cohab_mean [{ baseRow with cohab := .num 999 }, { baseRow with cohab := .num 5 }]
        = some (([(5 : ℚ)]).sum / (([(5 : ℚ)]).length : ℚ)) := rfl
    rw [h]
    norm_num

theorem cohab_sentinel_excluded_witness :
    ({ baseRow with cohab := Raw.num 5 } : Row).cohab ≠ Raw.num 999 :=
  cohab_sentinel_excluded.1 passSpec [{ baseRow with cohab := .num 5 }]
    [{ baseRow with cohab := .num 5 }] (by decide) _ (by simp)

/-- The weight-range scenario of the spec: weights {2.5, 3.1, 4.2}. -/
def wtRows : List Row :=
  [{ baseRow with weight := .num (mkRat 5 2) },
   { baseRow with weight := .num (mkRat 31 10) },
   { baseRow with weight := .num (mkRat 21 5) }]

def wtSpec : FilterSpec := { passSpec with wt_lo := 3, wt_hi := 4 }

/-- C7: the weight-range step keeps exactly the (weight-coerced) rows whose
weight parses to a number inside the inclusive range, dropping missing and
unparseable weights; on {2.5, 3.1, 4.2} with range [3, 4] exactly the 3.1 row
survives the whole pipeline. -/
theorem weight_range_filter_exact :
    (∀ (sp : FilterSpec) (l : List Row) (r : Row),
      r ∈ weightStep sp l ↔
        ∃ s ∈ l, r = normWeight s ∧
          ∃ q : ℚ, to_numeric s.weight = some q ∧ sp.wt_lo ≤ q ∧ q ≤ sp.wt_hi) ∧
    applyFilter wtSpec false wtRows = .ok [{ baseRow with weight := .num (mkRat 31 10) }] := by
  constructor
  · intro sp l r
    constructor
    · intro hr
      rcases List.mem_filter.mp hr with ⟨hmem, hpass⟩
      rcases List.mem_map.mp hmem with ⟨s, hs, hrs⟩
      subst hrs
      refine ⟨s, hs, rfl, ?_⟩
      cases hq : to_numeric s.weight with
      | none => rw [weightPass, normWeight_weight, hq] at hpass; simp [ofNum] at hpass
      | some q =>
        rw [weightPass, normWeight_weight, hq] at hpass
        simp only [ofNum, Bool.and_eq_true, decide_eq_true_eq] at hpass
        exact ⟨q, rfl, hpass.1, hpass.2⟩
    · rintro ⟨s, hs, rfl, q, hq, h1, h2⟩
      refine List.mem_filter.mpr ⟨List.mem_map.mpr ⟨s, hs, rfl⟩, ?_⟩
      rw [weightPass, normWeight_weight, hq]
      simp [ofNum, h1, h2]
  · decide

theorem weight_range_filter_exact_witness :
    ({ baseRow with weight := .num (mkRat 31 10) } : Row) ∈ weightStep wtSpec wtRows :=
  (weight_range_filter_exact.1 wtSpec wtRows _).mpr
    ⟨{ baseRow with weight := .num (mkRat 31 10) }, by simp [wtRows], by decide,
     mkRat 31 10, rfl, by decide, by decide⟩

/-- C10: a missing or unparseable multiplicity code is filled with 1 (single
birth): it counts in the denominator and never in the numerator, so a nonempty
set whose codes are all missing has multiple-birth ratio exactly 0, and a
missing-code row together with a twin row gives 50. -/
theorem multiple_missing_as_single :
    (∀ rows : List Row, rows ≠ [] → (∀ r ∈ rows, to_numeric r.multType = none) →
      multiple_ratio rows = some 0) ∧
    multiple_ratio [{ baseRow with multType := .na }, { baseRow with multType := .num 2 }] =
      some 50 := by
  constructor
  · intro rows hne hall
    rcases rows with _ | ⟨r, rs⟩
    · exact absurd rfl hne
    rw [multiple_ratio]
    simp only [List.isEmpty_cons, if_false, Bool.false_eq_true]
    have hflags : ∀ s ∈ r :: rs,
        decide (1 < truncQ ((to_numeric s.multType).getD 1)) = false := by
      intro s hs
      rw [hall s hs]
      decide
    have hcount : ((r :: rs).map
        (fun s => decide (1 < truncQ ((to_numeric s.multType).getD 1)))).count true = 0 := by
      rw [List.count_eq_zero]
      intro hmem
      rcases List.mem_map.mp hmem with ⟨s, hs, hfs⟩
      rw [hflags s hs] at hfs
      exact Bool.false_ne_true hfs
    rw [hcount]
    norm_num
  · have h : multiple_ratio
        [{ baseRow with multType := .na }, { baseRow with multType := .num 2 }]
        = some ((([false, true] : List Bool).count true : ℚ) / ((2 : ℕ) : ℚ) * 100) := rfl
    rw [h]
    norm_num

theorem multiple_missing_as_single_witness :
    multiple_ratio [{ baseRow with multType := .na }] = some 0 :=
  multiple_missing_as_single.1 [{ baseRow with multType := .na }] (by simp) (by decide)

/-- C2 counterexample: both ratio aggregates on the empty record set are `NaN`
(the mean of an empty series), not 0. -/
theorem ratio_on_empty_is_nan :
    multiple_ratio [] = none ∧ marital_ratio [] = none ∧ multiple_ratio [] ≠ some 0 :=
  ⟨rfl, rfl, by decide⟩

theorem ratio_unit_interval {c n : ℕ} (hn : 0 < n) (hc : c ≤ n) :
    0 ≤ (c : ℚ) / (n : ℚ) * 100 ∧ (c : ℚ) / (n : ℚ) * 100 ≤ 100 := by
  have hn' : (0 : ℚ) < (n : ℚ) := by exact_mod_cast hn
  constructor
  · positivity
  · have h1 : (c : ℚ) / (n : ℚ) ≤ 1 := (div_le_one hn').mpr (by exact_mod_cast hc)
    calc (c : ℚ) / (n : ℚ) * 100 ≤ 1 * 100 :=
          mul_le_mul_of_nonneg_right h1 (by norm_num)
      _ = 100 := one_mul 100

/-- C2 amended: on every nonempty record set both ratio aggregates are defined
and lie in [0, 100]; on the empty set they are `NaN` (not 0), though no
exception is raised. -/
theorem ratio_bounds_nonempty (rows : List Row) (h : rows ≠ []) :
    (∃ q : ℚ, multiple_ratio rows = some q ∧ 0 ≤ q ∧ q ≤ 100) ∧
    (∃ q : ℚ, marital_ratio rows = some q ∧ 0 ≤ q ∧ q ≤ 100) := by
  rcases rows with _ | ⟨r, rs⟩
  · exact absurd rfl h
  have hlen : 0 < (r :: rs).length := List.length_pos.mpr (List.cons_ne_nil r rs)
  constructor
  · have heq : multiple_ratio (r :: rs)
        = some ((((r :: rs).map
            (fun s => decide (1 < truncQ ((to_numeric s.multType).getD 1)))).count true : ℚ)
          / ((r :: rs).length : ℚ) * 100) := by
      rw [multiple_ratio]
      simp only [List.isEmpty_cons, if_false, Bool.false_eq_true]
    have hc := List.count_le_length
      (l := (r :: rs).map (fun s => decide (1 < truncQ ((to_numeric s.multType).getD 1))))
      (a := true)
    rw [List.length_map] at hc
    exact ⟨_, heq, (ratio_unit_interval hlen hc).1, (ratio_unit_interval hlen hc).2⟩
  · have heq : marital_ratio (r :: rs)
        = some ((((r :: rs).map
            (fun s => decide (to_numeric s.marital = some 2))).count true : ℚ)
          / ((r :: rs).length : ℚ) * 100) := by
      rw [marital_ratio]
      simp only [List.isEmpty_cons, if_false, Bool.false_eq_true]
    have hc := List.count_le_length
      (l := (r :: rs).map (fun s => decide (to_numeric s.marital = some 2)))
      (a := true)
    rw [List.length_map] at hc
    exact ⟨_, heq, (ratio_unit_interval hlen hc).1, (ratio_unit_interval hlen hc).2⟩

theorem ratio_bounds_nonempty_witness :
    (∃ q : ℚ, multiple_ratio [baseRow] = some q ∧ 0 ≤ q ∧ q ≤ 100) ∧
    (∃ q : ℚ, marital_ratio [baseRow] = some q ∧ 0 ≤ q ∧ q ≤ 100) :=
  ratio_bounds_nonempty [baseRow] (by simp)

/-- A two-row table with region codes 11 (Seoul) and 21 (Busan). -/
def seoulSpec : FilterSpec := { passSpec with selected_regions_name := ["서울특별시"] }

def regionRows : List Row := [baseRow, { baseRow with region := .num 21 }]

/-- C9: no two region codes share a label, the reversed label → code mapping
round-trips every entry, and filtering by one region label keeps exactly the
rows whose region column decodes to that label's unique code. -/
theorem region_map_injective_roundtrip :
    ((REGION_MAP.map Prod.snd).Nodup) ∧
    (∀ p ∈ REGION_MAP, REGION_MAP_REV.lookup p.2 = some p.1) ∧
    (∀ (sp : FilterSpec) (lab : String) (c : Int) (l out : List Row),
      sp.selected_regions_name = [lab] → REGION_MAP.lookup c = some lab →
      regionStep sp l = .ok out →
      ∀ r ∈ l, (r ∈ out ↔ to_int_cell r.region = .ok (some c))) := by
  refine ⟨by decide, by decide, ?_⟩
  intro sp lab c l out hsp hc hstep r hr
  have hrev : REGION_MAP_REV.lookup lab = some c := by
    have h2 : ∀ p ∈ REGION_MAP, REGION_MAP_REV.lookup p.2 = some p.1 := by decide
    exact h2 (c, lab) (lookup_mem hc)
  have hcodes : regionCodes [lab] = [c] := by
    simp [regionCodes, hrev]
  rw [regionStep, hsp] at hstep
  simp only [List.isEmpty_cons, if_false, Bool.false_eq_true, hcodes] at hstep
  rw [stepFilter_ok_eq hstep]
  rw [List.mem_filter]
  simp only [hr, true_and, decide_eq_true_eq]
  constructor
  · intro hp
    cases ht : to_int_cell r.region with
    | error e => rw [cellIsin, ht] at hp; exact absurd hp (by simp [Except.map])
    | ok oc =>
      rw [cellIsin, ht] at hp
      simp only [Except.map, Except.ok.injEq] at hp
      cases oc with
      | none => simp [isinI] at hp
      | some c' =>
        simp only [isinI, List.contains, List.elem] at hp
        cases hcc : c' == c with
        | false => rw [hcc] at hp; simp at hp
        | true => rw [eq_of_beq hcc]
  · intro ht
    rw [cellIsin, ht]
    simp [Except.map, isinI]

theorem region_map_injective_roundtrip_witness :
    (baseRow ∈ ([baseRow] : List Row) ↔ to_int_cell baseRow.region = .ok (some 11)) :=
  region_map_injective_roundtrip.2.2 seoulSpec "서울특별시" 11 regionRows [baseRow]
    rfl (by decide) (by decide) baseRow (by simp [regionRows])

theorem yearStep_sublist {sp : FilterSpec} {l out : List Row}
    (h : yearStep sp l = .ok out) : out.Sublist l := by
  unfold yearStep at h
  split at h
  · injection h with h; subst h; exact List.Sublist.refl _
  · exact stepFilter_sublist h

theorem regionStep_sublist {sp : FilterSpec} {l out : List Row}
    (h : regionStep sp l = .ok out) : out.Sublist l := by
  unfold regionStep at h
  split at h
  · injection h with h; subst h; exact List.Sublist.refl _
  · exact stepFilter_sublist h

theorem genderStep_sublist {sp : FilterSpec} {l out : List Row}
    (h : genderStep sp l = .ok out) : out.Sublist l := by
  unfold genderStep at h
  split at h
  · injection h with h; subst h; exact List.Sublist.refl _
  · split at h
    · exact absurd h (by simp)
    · exact stepFilter_sublist h

theorem monthStep_sublist {sp : FilterSpec} {l out : List Row}
    (h : monthStep sp l = .ok out) : out.Sublist l := by
  unfold monthStep at h
  split at h
  · injection h with h; subst h; exact List.Sublist.refl _
  · exact stepFilter_sublist h

theorem multStep_sublist {sp : FilterSpec} {l out : List Row}
    (h : multStep sp l = .ok out) : out.Sublist l := by
  unfold multStep at h
  split at h
  · injection h with h; subst h; exact List.Sublist.refl _
  · split at h
    · exact absurd h (by simp)
    · exact stepFilter_sublist h

theorem maritalStep_sublist {sp : FilterSpec} {l out : List Row}
    (h : maritalStep sp l = .ok out) : out.Sublist l := by
  unfold maritalStep at h
  split at h
  · injection h with h; subst h; exact List.Sublist.refl _
  · split at h
    · exact absurd h (by simp)
    · exact stepFilter_sublist h

theorem naStep_sublist (sp : FilterSpec) (l : List Row) : (naStep sp l).Sublist l := by
  unfold naStep
  split
  · exact List.filter_sublist _
  · exact List.Sublist.refl _

/-- C6 counterexample: a kept row whose cohabitation cell is unparseable text
comes out with that cell coerced to missing, so the output is not a
subsequence of the raw input. -/
theorem filter_not_sublist_of_input :
    applyFilter passSpec true [{ baseRow with cohab := .txt "x" }]
        = .ok [{ baseRow with cohab := .na }] ∧
    ¬ ([{ baseRow with cohab := Raw.na }] : List Row).Sublist
        [{ baseRow with cohab := Raw.txt "x" }] := by
  constructor
  · decide
  · intro hs
    have hmem := hs.subset (List.mem_singleton_self _)
    rw [List.mem_singleton] at hmem
    exact absurd hmem (by decide)

/-- C6 amended: the filter never reorders rows: its result is a subsequence of
the input after the pipeline's own per-row normalization (the in-place numeric
coercion of the weight column, and of the cohabitation column when present). -/
theorem applyFilter_sublist_normalized (sp : FilterSpec) (hc : Bool)
    (rows out : List Row) (h : applyFilter sp hc rows = .ok out) :
    out.Sublist (rows.map (normAll hc)) := by
  obtain ⟨r1, r2, r3, r4, r5, r6, h1, h2, h3, h4, h5, h6, hout⟩ := applyFilter_chain h
  have s6 : r6.Sublist rows :=
    ((((maritalStep_sublist h6).trans (multStep_sublist h5)).trans
      (monthStep_sublist h4)).trans (genderStep_sublist h3)).trans
      ((regionStep_sublist h2).trans (yearStep_sublist h1))
  have hw : (weightStep sp r6).Sublist (rows.map normWeight) :=
    (List.filter_sublist _).trans (s6.map normWeight)
  have hna : (naStep sp (weightStep sp r6)).Sublist (rows.map normWeight) :=
    (naStep_sublist sp _).trans hw
  subst hout
  cases hc with
  | false =>
    simpa [cohabStep, normAll] using hna
  | true =>
    have hco : (cohabStep true (naStep sp (weightStep sp r6))).Sublist
        ((rows.map normWeight).map normCohab) := by
      unfold cohabStep
      rw [if_pos rfl]
      exact (List.filter_sublist _).trans (hna.map normCohab)
    simpa [normAll, List.map_map, Function.comp] using hco

theorem applyFilter_sublist_normalized_witness :
    ([{ baseRow with cohab := Raw.na }] : List Row).Sublist
      ([{ baseRow with cohab := Raw.txt "x" }].map (normAll true)) :=
  applyFilter_sublist_normalized passSpec true _ _ (by decide)

theorem yearStep_mem {sp : FilterSpec} {l out : List Row} (h : yearStep sp l = .ok out)
    {r : Row} (hr : r ∈ out) :
    r ∈ l ∧ ∀ y, sp.selected_year = some y → cellEq Row.year y r = .ok true := by
  cases hy : sp.selected_year with
  | none =>
    simp only [yearStep, hy] at h
    injection h with h
    subst h
    exact ⟨hr, fun y hy' => by cases hy'⟩
  | some y =>
    simp only [yearStep, hy] at h
    obtain ⟨hl, hp⟩ := stepFilter_mem h hr
    refine ⟨hl, fun y' hy' => ?_⟩
    injection hy' with e
    subst e
    exact hp

theorem regionStep_mem {sp : FilterSpec} {l out : List Row} (h : regionStep sp l = .ok out)
    {r : Row} (hr : r ∈ out) :
    r ∈ l ∧ (sp.selected_regions_name ≠ [] →
      cellIsin Row.region (regionCodes sp.selected_regions_name) r = .ok true) := by
  cases hz : sp.selected_regions_name with
  | nil =>
    have hie : sp.selected_regions_name.isEmpty = true := by rw [hz]; rfl
    simp only [regionStep, hie, if_true] at h
    injection h with h
    subst h
    exact ⟨hr, fun hne => absurd rfl hne⟩
  | cons a as =>
    have hie : sp.selected_regions_name.isEmpty = false := by rw [hz]; rfl
    simp only [regionStep, hie, Bool.false_eq_true, if_false] at h
    obtain ⟨hl, hp⟩ := stepFilter_mem h hr
    exact ⟨hl, fun _ => hz ▸ hp⟩

theorem genderStep_mem {sp : FilterSpec} {l out : List Row} (h : genderStep sp l = .ok out)
    {r : Row} (hr : r ∈ out) :
    r ∈ l ∧ ∀ cs, sp.selected_genders ≠ [] → genderCodes sp = some cs →
      cellIsin Row.gender cs r = .ok true := by
  cases hz : sp.selected_genders with
  | nil =>
    have hie : sp.selected_genders.isEmpty = true := by rw [hz]; rfl
    simp only [genderStep, hie, if_true] at h
    injection h with h
    subst h
    exact ⟨hr, fun cs hne _ => absurd rfl hne⟩
  | cons a as =>
    have hie : sp.selected_genders.isEmpty = false := by rw [hz]; rfl
    simp only [genderStep, hie, Bool.false_eq_true, if_false] at h
    cases hcs : genderCodes sp with
    | none => rw [hcs] at h; cases h
    | some cs0 =>
      rw [hcs] at h
      obtain ⟨hl, hp⟩ := stepFilter_mem h hr
      refine ⟨hl, fun cs hne hcs' => ?_⟩
      injection hcs' with e
      subst e
      exact hp

theorem monthStep_mem {sp : FilterSpec} {l out : List Row} (h : monthStep sp l = .ok out)
    {r : Row} (hr : r ∈ out) :
    r ∈ l ∧ (sp.selected_months ≠ [] →
      cellIsin Row.month sp.selected_months r = .ok true) := by
  cases hz : sp.selected_months with
  | nil =>
    have hie : sp.selected_months.isEmpty = true := by rw [hz]; rfl
    simp only [monthStep, hie, if_true] at h
    injection h with h
    subst h
    exact ⟨hr, fun hne => absurd rfl hne⟩
  | cons a as =>
    have hie : sp.selected_months.isEmpty = false := by rw [hz]; rfl
    simp only [monthStep, hie, Bool.false_eq_true, if_false] at h
    obtain ⟨hl, hp⟩ := stepFilter_mem h hr
    exact ⟨hl, fun _ => hz ▸ hp⟩

theorem multStep_mem {sp : FilterSpec} {l out : List Row} (h : multStep sp l = .ok out)
    {r : Row} (hr : r ∈ out) :
    r ∈ l ∧ ∀ lab c, sp.selected_multiple = some lab →
      (revMap multiple_map).lookup lab = some c → cellEq Row.multType c r = .ok true := by
  cases hz : sp.selected_multiple with
  | none =>
    simp only [multStep, hz] at h
    injection h with h
    subst h
    exact ⟨hr, fun lab c hlab _ => by cases hlab⟩
  | some lab0 =>
    simp only [multStep, hz] at h
    cases hcv : (revMap multiple_map).lookup lab0 with
    | none => rw [hcv] at h; cases h
    | some c0 =>
      rw [hcv] at h
      obtain ⟨hl, hp⟩ := stepFilter_mem h hr
      refine ⟨hl, fun lab c hlab hcv' => ?_⟩
      injection hlab with e
      subst e
      rw [hcv] at hcv'
      injection hcv' with e'
      subst e'
      exact hp

theorem maritalStep_mem {sp : FilterSpec} {l out : List Row} (h : maritalStep sp l = .ok out)
    {r : Row} (hr : r ∈ out) :
    r ∈ l ∧ ∀ lab c, sp.selected_marital = some lab →
      (revMap marital_map).lookup lab = some c → cellEq Row.marital c r = .ok true := by
  cases hz : sp.selected_marital with
  | none =>
    simp only [maritalStep, hz] at h
    injection h with h
    subst h
    exact ⟨hr, fun lab c hlab _ => by cases hlab⟩
  | some lab0 =>
    simp only [maritalStep, hz] at h
    cases hcv : (revMap marital_map).lookup lab0 with
    | none => rw [hcv] at h; cases h
    | some c0 =>
      rw [hcv] at h
      obtain ⟨hl, hp⟩ := stepFilter_mem h hr
      refine ⟨hl, fun lab c hlab hcv' => ?_⟩
      injection hlab with e
      subst e
      rw [hcv] at hcv'
      injection hcv' with e'
      subst e'
      exact hp

/-- A row each pipeline predicate accepts and each in-place coercion fixes:
exactly the rows the pipeline can emit, and on which it is a no-op. -/
def GoodRow (sp : FilterSpec) (hc : Bool) (r : Row) : Prop :=
  (∀ y, sp.selected_year = some y → cellEq Row.year y r = .ok true) ∧
  (sp.selected_regions_name ≠ [] →
    cellIsin Row.region (regionCodes sp.selected_regions_name) r = .ok true) ∧
  (∀ cs, sp.selected_genders ≠ [] → genderCodes sp = some cs →
    cellIsin Row.gender cs r = .ok true) ∧
  (sp.selected_months ≠ [] → cellIsin Row.month sp.selected_months r = .ok true) ∧
  (∀ lab c, sp.selected_multiple = some lab →
    (revMap multiple_map).lookup lab = some c → cellEq Row.multType c r = .ok true) ∧
  (∀ lab c, sp.selected_marital = some lab →
    (revMap marital_map).lookup lab = some c → cellEq Row.marital c r = .ok true) ∧
  (normWeight r = r ∧ weightPass sp r = true) ∧
  (sp.exclude_na = true → corePresent r = true) ∧
  (hc = true → normCohab r = r ∧ cohabPass r = true)

/-- The label → code lookups the specification itself forces to succeed. -/
def SpecOk (sp : FilterSpec) : Prop :=
  (sp.selected_genders ≠ [] → (genderCodes sp).isSome = true) ∧
  (∀ lab, sp.selected_multiple = some lab →
    ((revMap multiple_map).lookup lab).isSome = true) ∧
  (∀ lab, sp.selected_marital = some lab →
    ((revMap marital_map).lookup lab).isSome = true)

theorem chain_preds {sp : FilterSpec} {rows r1 r2 r3 r4 r5 r6 : List Row}
    (h1 : yearStep sp rows = .ok r1) (h2 : regionStep sp r1 = .ok r2)
    (h3 : genderStep sp r2 = .ok r3) (h4 : monthStep sp r3 = .ok r4)
    (h5 : multStep sp r4 = .ok r5) (h6 : maritalStep sp r5 = .ok r6)
    {s : Row} (hs : s ∈ r6) :
    s ∈ rows ∧
    (∀ y, sp.selected_year = some y → cellEq Row.year y s = .ok true) ∧
    (sp.selected_regions_name ≠ [] →
      cellIsin Row.region (regionCodes sp.selected_regions_name) s = .ok true) ∧
    (∀ cs, sp.selected_genders ≠ [] → genderCodes sp = some cs →
      cellIsin Row.gender cs s = .ok true) ∧
    (sp.selected_months ≠ [] → cellIsin Row.month sp.selected_months s = .ok true) ∧
    (∀ lab c, sp.selected_multiple = some lab →
      (revMap multiple_map).lookup lab = some c → cellEq Row.multType c s = .ok true) ∧
    (∀ lab c, sp.selected_marital = some lab →
      (revMap marital_map).lookup lab = some c → cellEq Row.marital c s = .ok true) := by
  obtain ⟨hs5, p6⟩ := maritalStep_mem h6 hs
  obtain ⟨hs4, p5⟩ := multStep_mem h5 hs5
  obtain ⟨hs3, p4⟩ := monthStep_mem h4 hs4
  obtain ⟨hs2, p3⟩ := genderStep_mem h3 hs3
  obtain ⟨hs1, p2⟩ := regionStep_mem h2 hs2
  obtain ⟨hs0, p1⟩ := yearStep_mem h1 hs1
  exact ⟨hs0, p1, p2, p3, p4, p5, p6⟩

theorem specOk_of_run {sp : FilterSpec} {hc : Bool} {rows out : List Row}
    (h : applyFilter sp hc rows = .ok out) : SpecOk sp := by
  obtain ⟨r1, r2, r3, r4, r5, r6, h1, h2, h3, h4, h5, h6, -⟩ := applyFilter_chain h
  refine ⟨?_, ?_, ?_⟩
  · intro hne
    cases hz : sp.selected_genders with
    | nil => exact absurd hz hne
    | cons a as =>
      have hie : sp.selected_genders.isEmpty = false := by rw [hz]; rfl
      simp only [genderStep, hie, Bool.false_eq_true, if_false] at h3
      cases hcs : genderCodes sp with
      | none => rw [hcs] at h3; cases h3
      | some cs => rfl
  · intro lab hlab
    simp only [multStep, hlab] at h5
    cases hcv : (revMap multiple_map).lookup lab with
    | none => rw [hcv] at h5; cases h5
    | some c => rfl
  · intro lab hlab
    simp only [maritalStep, hlab] at h6
    cases hcv : (revMap marital_map).lookup lab with
    | none => rw [hcv] at h6; cases h6
    | some c => rfl

theorem naStep_mem {sp : FilterSpec} {l : List Row} {t : Row} (ht : t ∈ naStep sp l) :
    t ∈ l ∧ (sp.exclude_na = true → corePresent t = true) := by
  unfold naStep at ht
  cases hz : sp.exclude_na with
  | false =>
    rw [hz] at ht
    simp only [Bool.false_eq_true, if_false] at ht
    exact ⟨ht, fun h' => by cases h'⟩
  | true =>
    rw [hz] at ht
    simp only [if_true] at ht
    obtain ⟨hm, hp⟩ := List.mem_filter.mp ht
    exact ⟨hm, fun _ => hp⟩

theorem goodRow_of_run {sp : FilterSpec} {hc : Bool} {rows out : List Row}
    (h : applyFilter sp hc rows = .ok out) : ∀ r ∈ out, GoodRow sp hc r := by
  obtain ⟨r1, r2, r3, r4, r5, r6, h1, h2, h3, h4, h5, h6, hout⟩ := applyFilter_chain h
  intro r hr
  subst hout
  cases hc with
  | false =>
    simp only [cohabStep, Bool.false_eq_true, if_false] at hr
    obtain ⟨hrw, hcore⟩ := naStep_mem hr
    unfold weightStep at hrw
    obtain ⟨hmm', hwp⟩ := List.mem_filter.mp hrw
    obtain ⟨s, hs6, hts⟩ := List.mem_map.mp hmm'
    subst hts
    obtain ⟨-, p1, p2, p3, p4, p5, p6⟩ := chain_preds h1 h2 h3 h4 h5 h6 hs6
    exact ⟨fun y hy => p1 y hy, fun hne => p2 hne, fun cs hne hcs => p3 cs hne hcs,
           fun hne => p4 hne, fun lab c ha hb => p5 lab c ha hb,
           fun lab c ha hb => p6 lab c ha hb,
           ⟨normWeight_idem s, hwp⟩, hcore, fun hh => by cases hh⟩
  | true =>
    unfold cohabStep at hr
    rw [if_pos rfl] at hr
    obtain ⟨hm, hcp⟩ := List.mem_filter.mp hr
    obtain ⟨t, htm, hts⟩ := List.mem_map.mp hm
    subst hts
    obtain ⟨htw, hcore⟩ := naStep_mem htm
    unfold weightStep at htw
    obtain ⟨hmm', hwp⟩ := List.mem_filter.mp htw
    obtain ⟨s, hs6, hts'⟩ := List.mem_map.mp hmm'
    subst hts'
    obtain ⟨-, p1, p2, p3, p4, p5, p6⟩ := chain_preds h1 h2 h3 h4 h5 h6 hs6
    refine ⟨fun y hy => p1 y hy, fun hne => p2 hne, fun cs hne hcs => p3 cs hne hcs,
            fun hne => p4 hne, fun lab c ha hb => p5 lab c ha hb,
            fun lab c ha hb => p6 lab c ha hb,
            ⟨?_, hwp⟩, fun h' => hcore h', fun _ => ⟨normCohab_idem _, hcp⟩⟩
    rw [normWeight_normCohab, normWeight_idem]

theorem map_eq_self_of {f : Row → Row} {l : List Row} (h : ∀ a ∈ l, f a = a) :
    l.map f = l := by
  induction l with
  | nil => rfl
  | cons a as ih =>
    rw [List.map_cons, h a (List.mem_cons_self a as),
      ih fun b hb => h b (List.mem_cons_of_mem a hb)]

theorem applyFilter_fix (sp : FilterSpec) (hc : Bool) (l : List Row)
    (hspec : SpecOk sp) (hgood : ∀ r ∈ l, GoodRow sp hc r) :
    applyFilter sp hc l = .ok l := by
  have hy : yearStep sp l = .ok l := by
    cases hz : sp.selected_year with
    | none => simp [yearStep, hz]
    | some y =>
      simp only [yearStep, hz]
      exact stepFilter_all fun r hr => (hgood r hr).1 y hz
  have hreg : regionStep sp l = .ok l := by
    cases hz : sp.selected_regions_name with
    | nil =>
      have hie : sp.selected_regions_name.isEmpty = true := by rw [hz]; rfl
      simp [regionStep, hie]
    | cons a as =>
      have hie : sp.selected_regions_name.isEmpty = false := by rw [hz]; rfl
      have hne : sp.selected_regions_name ≠ [] := by rw [hz]; exact List.cons_ne_nil a as
      simp only [regionStep, hie, Bool.false_eq_true, if_false]
      exact stepFilter_all fun r hr => (hgood r hr).2.1 hne
  have hgen : genderStep sp l = .ok l := by
    cases hz : sp.selected_genders with
    | nil =>
      have hie : sp.selected_genders.isEmpty = true := by rw [hz]; rfl
      simp [genderStep, hie]
    | cons a as =>
      have hie : sp.selected_genders.isEmpty = false := by rw [hz]; rfl
      have hne : sp.selected_genders ≠ [] := by rw [hz]; exact List.cons_ne_nil a as
      obtain ⟨cs, hcs⟩ := Option.isSome_iff_exists.mp (hspec.1 hne)
      simp only [genderStep, hie, Bool.false_eq_true, if_false, hcs]
      exact stepFilter_all fun r hr => (hgood r hr).2.2.1 cs hne hcs
  have hmo : monthStep sp l = .ok l := by
    cases hz : sp.selected_months with
    | nil =>
      have hie : sp.selected_months.isEmpty = true := by rw [hz]; rfl
      simp [monthStep, hie]
    | cons a as =>
      have hie : sp.selected_months.isEmpty = false := by rw [hz]; rfl
      have hne : sp.selected_months ≠ [] := by rw [hz]; exact List.cons_ne_nil a as
      simp only [monthStep, hie, Bool.false_eq_true, if_false]
      exact stepFilter_all fun r hr => (hgood r hr).2.2.2.1 hne
  have hmul : multStep sp l = .ok l := by
    cases hz : sp.selected_multiple with
    | none => simp [multStep, hz]
    | some lab =>
      obtain ⟨c, hcv⟩ := Option.isSome_iff_exists.mp (hspec.2.1 lab hz)
      simp only [multStep, hz, hcv]
      exact stepFilter_all fun r hr => (hgood r hr).2.2.2.2.1 lab c hz hcv
  have hmar : maritalStep sp l = .ok l := by
    cases hz : sp.selected_marital with
    | none => simp [maritalStep, hz]
    | some lab =>
      obtain ⟨c, hcv⟩ := Option.isSome_iff_exists.mp (hspec.2.2 lab hz)
      simp only [maritalStep, hz, hcv]
      exact stepFilter_all fun r hr => (hgood r hr).2.2.2.2.2.1 lab c hz hcv
  have hwt : weightStep sp l = l := by
    unfold weightStep
    rw [map_eq_self_of fun a ha => (hgood a ha).2.2.2.2.2.2.1.1]
    exact List.filter_eq_self.mpr fun a ha => (hgood a ha).2.2.2.2.2.2.1.2
  have hna : naStep sp l = l := by
    unfold naStep
    cases hz : sp.exclude_na with
    | false => simp
    | true =>
      rw [if_pos rfl]
      exact List.filter_eq_self.mpr fun a ha => (hgood a ha).2.2.2.2.2.2.2.1 hz
  have hcoh : cohabStep hc l = l := by
    unfold cohabStep
    cases hc with
    | false => simp
    | true =>
      rw [if_pos rfl]
      rw [map_eq_self_of fun a ha => ((hgood a ha).2.2.2.2.2.2.2.2 rfl).1]
      exact List.filter_eq_self.mpr fun a ha => ((hgood a ha).2.2.2.2.2.2.2.2 rfl).2
  unfold applyFilter
  simp only [hy, hreg, hgen, hmo, hmul, hmar]
  rw [hwt, hna, hcoh]

/-- C5: the sidebar filter pipeline is idempotent: applying the filter to its
own output (under the same specification and column presence) returns that
output unchanged. -/
theorem applyFilter_idempotent (sp : FilterSpec) (hc : Bool) (rows out : List Row)
    (h : applyFilter sp hc rows = .ok out) : applyFilter sp hc out = .ok out :=
  applyFilter_fix sp hc out (specOk_of_run h) (goodRow_of_run h)

theorem applyFilter_idempotent_witness :
    applyFilter passSpec false [baseRow] = .ok [baseRow] :=
  applyFilter_idempotent passSpec false [baseRow] [baseRow] (by decide)
